import Mathlib

/-!
Verification of the wechat-channel repository.

This file gives a shallow embedding, in Lean 4, of the access-policy engine,
the inbound debounce merge, the outbound media pipeline and the WebSocket
connection client of the repository, translated from `src/src/runtime.ts` and
`src/src/websocket.ts`, and proves or refutes the frozen claims about them.

Modelling conventions:
* JavaScript strings are Lean `String`s; `String.prototype.trim` is modelled
  by `jsTrim` below (drop whitespace from both ends), `toLowerCase` by
  mapping `Char.toLower`.
* `undefined`/`null` is `Option.none`; JavaScript truthiness of a string is
  "non-empty", of an optional value "present and truthy".
* Host platform APIs that are not code of this repository (the WHATWG `URL`
  parser, `URLSearchParams`, `decodeURIComponent`, `Number.parseFloat`, and
  the plugin-sdk helper `getFileExtension`) are abstracted as fields of a
  `JsHost` structure; theorems quantify over the host where possible.
-/

namespace WechatChannel

/-! ### JavaScript string primitives -/

/-- Whitespace as recognised by the model of JavaScript `trim`. -/
def jsWs (c : Char) : Bool := c.isWhitespace

/-- Remove trailing characters satisfying `jsWs` from a character list. -/
def trimRight : List Char → List Char
  | [] => []
  | a :: t =>
    match trimRight t with
    | [] => if jsWs a then [] else [a]
    | r => a :: r

/-- Model of JavaScript `String.prototype.trim`: drop whitespace from both
ends. -/
def jsTrim (s : String) : String :=
  ⟨trimRight (s.data.dropWhile jsWs)⟩

/-- Model of JavaScript `String.prototype.toLowerCase` (ASCII case folding). -/
def jsLower (s : String) : String :=
  ⟨s.data.map Char.toLower⟩

/-- Character-list prefix test. -/
def hasPrefixChars : List Char → List Char → Bool
  | [], _ => true
  | _ :: _, [] => false
  | a :: p, b :: l => a == b && hasPrefixChars p l

/-- Model of JavaScript `String.prototype.startsWith`. -/
def jsStartsWith (s pre : String) : Bool :=
  hasPrefixChars pre.data s.data

/-- Model of JavaScript string slicing from a character index to the end. -/
def jsDrop (s : String) (n : Nat) : String :=
  ⟨s.data.drop n⟩

/-- Split a character list at every occurrence of characters satisfying `p`
(the separators are removed; empty segments are kept, as in JavaScript
`split`). -/
def splitCharsBy (p : Char → Bool) : List Char → List (List Char)
  | [] => [[]]
  | a :: t =>
    let r := splitCharsBy p t
    if p a then [] :: r
    else
      match r with
      | [] => [[a]]
      | h :: t' => (a :: h) :: t'

/-- Model of JavaScript `String.prototype.split` with a single-character
separator (no limit). -/
def jsSplitChar (s : String) (c : Char) : List String :=
  (splitCharsBy (· == c) s.data).map fun l => ⟨l⟩

/-- Model of JavaScript `split` on a character class (such as `/[?#]/`). -/
def jsSplitAny (s : String) (cs : List Char) : List String :=
  (splitCharsBy (fun a => cs.contains a) s.data).map fun l => ⟨l⟩

/-- Join a list of strings with a separator; model of JavaScript
`Array.prototype.join`. -/
def jsJoin (sep : String) : List String → String
  | [] => ""
  | [x] => x
  | x :: xs => x ++ sep ++ jsJoin sep xs

/-! Facts about `jsTrim` needed later: trimming is idempotent. -/

theorem dropWhile_head_false {p : Char → Bool} {l : List Char} {a : Char}
    {t : List Char} (h : l.dropWhile p = a :: t) : p a = false := by
  induction l with
  | nil => simp [List.dropWhile] at h
  | cons b l ih =>
    rw [List.dropWhile_cons] at h
    by_cases hb : p b
    · simp [hb] at h
      exact ih h
    · simp [hb] at h
      simp [← h.1, hb]

theorem trimRight_cons (a : Char) (t : List Char) :
    trimRight (a :: t) =
      match trimRight t with
      | [] => if jsWs a then [] else [a]
      | r => a :: r := rfl

theorem trimRight_idem (l : List Char) : trimRight (trimRight l) = trimRight l := by
  induction l with
  | nil => rfl
  | cons a t ih =>
    cases hr : trimRight t with
    | nil =>
      by_cases ha : jsWs a
      · simp [trimRight, hr, ha]
      · simp [trimRight, hr, ha]
    | cons b r =>
      have h2 : trimRight (b :: r) = b :: r := by rw [← hr, ih, hr]
      rw [trimRight_cons a t, hr]
      show trimRight (a :: b :: r) = a :: b :: r
      rw [trimRight_cons a (b :: r), h2]

theorem dropWhile_trimRight_cons (a : Char) (t : List Char) (ha : jsWs a = false) :
    (trimRight (a :: t)).dropWhile jsWs = trimRight (a :: t) := by
  cases hr : trimRight t with
  | nil => simp [trimRight, hr, ha, List.dropWhile_cons]
  | cons b r => simp [trimRight, hr, ha, List.dropWhile_cons]

theorem jsTrim_idem (s : String) : jsTrim (jsTrim s) = jsTrim s := by
  unfold jsTrim
  cases hm : s.data.dropWhile jsWs with
  | nil => rfl
  | cons a t =>
    have ha : jsWs a = false := dropWhile_head_false hm
    simp only [String.data]
    rw [dropWhile_trimRight_cons a t ha, trimRight_idem]

/-! ### Allow-list normalisation (src/src/runtime.ts lines 2399-2445)

The wechat variant of the policy helpers.  `normalizeWechatTarget` strips a
recognised channel scheme with the anchored case-insensitive regular
expression `/^(wechat-channel|wechat|wx):/i` (a single replacement). -/

/-- The anchored, case-insensitive, first-match-only replacement of
`/^(wechat-channel|wechat|wx):/i` by the empty string. -/
def stripChannelScheme (s : String) : String :=
  if jsStartsWith (jsLower s) "wechat-channel:" then jsDrop s 15
  else if jsStartsWith (jsLower s) "wechat:" then jsDrop s 7
  else if jsStartsWith (jsLower s) "wx:" then jsDrop s 3
  else s

/-- `normalizeWechatTarget` (runtime.ts 2399-2403): trim, return `none` for
an empty result, else strip a recognised channel scheme. -/
def normalizeWechatTarget (raw : Option String) : Option String :=
  match raw with
  | none => none
  | some s =>
    let trimmed := jsTrim s
    if trimmed = "" then none else some (stripChannelScheme trimmed)

/-- `normalizeAllowEntry` (runtime.ts 2419-2424).  Allow-list entries may be
numbers in the source (`String(entry)`); the model takes the string form. -/
def normalizeAllowEntry (entry : String) : String :=
  let raw := jsTrim entry
  if raw = "" then ""
  else if raw = "*" then "*"
  else (normalizeWechatTarget (some raw)).getD raw

/-- `normalizeAllowFromEntries` (runtime.ts 2426-2432): normalise each entry,
trim, and drop empties. -/
def normalizeAllowFromEntries (allowFrom : Option (List String)) : List String :=
  match allowFrom with
  | none => []
  | some l => ((l.map normalizeAllowEntry).map jsTrim).filter (· ≠ "")

/-- `isSenderAllowed` (runtime.ts 2441-2445): wildcard `*` admits anyone,
otherwise compare normalised, lower-cased forms. -/
def isSenderAllowed (senderId : String) (allowFrom : List String) : Bool :=
  if allowFrom.contains "*" then true
  else
    let normalizedSender := jsLower (normalizeAllowEntry senderId)
    allowFrom.any fun entry => jsLower (normalizeAllowEntry entry) == normalizedSender

/-- The normalisation described by the specification: trim, strip a
recognised channel prefix, lower-case.  Used to compare the code's behaviour
with the spec's wording. -/
def specNormalize (s : String) : String :=
  jsLower (stripChannelScheme (jsTrim s))

theorem jsLower_normalizeAllowEntry (x : String) :
    jsLower (normalizeAllowEntry x) = specNormalize x := by
  unfold normalizeAllowEntry specNormalize
  by_cases h0 : jsTrim x = ""
  · rw [h0]
    decide
  · by_cases h1 : jsTrim x = "*"
    · rw [h1]
      decide
    · simp only [if_neg h0, if_neg h1, normalizeWechatTarget, jsTrim_idem, if_neg h0,
        Option.getD_some]

/-! ### Group configuration and group policy helpers
(src/src/runtime.ts lines 2447-2509)

JavaScript `Record<string, T>` tables are modelled as association lists with
unique keys; `groups[k]` is `List.lookup`, `Object.keys(groups).length` is
the list length. -/

/-- The DM policy enumeration of the plugin SDK
(`pairing | allowlist | open | disabled`). -/
inductive DmPolicy where
  | pairing
  | allowlist
  | openPolicy
  | disabled
deriving DecidableEq

/-- The group policy enumeration of the plugin SDK
(`open | disabled | allowlist`). -/
inductive GroupPolicy where
  | openPolicy
  | disabled
  | allowlist
deriving DecidableEq

/-- `WechatGroupConfig` (src/src/types.ts): per-group flags; absent fields
are `none`.  The tool-policy fields are irrelevant to the claims and
omitted. -/
structure WechatGroupConfig where
  allow : Option Bool := none
  enabled : Option Bool := none
  requireMention : Option Bool := none
deriving DecidableEq

/-- The explicit entry used by `isGroupAllowed`'s candidate loop: the key
itself, then the `group:`-prefixed alias. -/
def explicitGroupEntry (groupId : String)
    (groups : List (String × WechatGroupConfig)) : Option WechatGroupConfig :=
  (groups.lookup groupId).orElse fun _ => groups.lookup ("group:" ++ groupId)

/-- `isGroupAllowed` (runtime.ts 2447-2469): an empty table denies; an
explicit entry (direct key or `group:` alias) decides by its
`allow`/`enabled` flags; otherwise a `*` wildcard entry decides. -/
def isGroupAllowed (groupId : String)
    (groups : List (String × WechatGroupConfig)) : Bool :=
  if groups.length = 0 then false
  else
    match explicitGroupEntry groupId groups with
    | some entry =>
      if entry.allow == some false || entry.enabled == some false then false else true
    | none =>
      match groups.lookup "*" with
      | some wildcard => !(wildcard.allow == some false) && !(wildcard.enabled == some false)
      | none => false

/-- The behaviour the specification describes for `isGroupAllowed`: the
explicit entry (direct key or alias) takes priority over the wildcard and
denies exactly when `allow=false` or `enabled=false`; with no explicit entry
the `*` entry allows iff present and not disabled; an empty table (no entry
at all) denies. -/
def isGroupAllowedSpec (groupId : String)
    (groups : List (String × WechatGroupConfig)) : Bool :=
  match explicitGroupEntry groupId groups with
  | some entry => !(entry.allow == some false || entry.enabled == some false)
  | none =>
    match groups.lookup "*" with
    | some wildcard => !(wildcard.allow == some false) && !(wildcard.enabled == some false)
    | none => false

/-- Account-level configuration slice used by the policy engine
(src/src/types.ts `WechatAccountConfig`); fields irrelevant to the claims
are omitted. -/
structure WechatAccountConfig where
  dmPolicy : Option DmPolicy := none
  allowFrom : Option (List String) := none
  groupMembers : Option (List (String × List String)) := none
  groupPolicy : Option GroupPolicy := none
  groups : Option (List (String × WechatGroupConfig)) := none
  requireMention : Option Bool := none
deriving DecidableEq

/-- `resolveGroupRequireMention` (runtime.ts 2471-2492): group entry (direct
key, else `group:` alias), then wildcard entry, then the account-level
setting, defaulting to `true`. -/
def resolveGroupRequireMention (config : WechatAccountConfig)
    (groupId : Option String) : Bool :=
  let groups := config.groups.getD []
  let fromEntry : Option Bool :=
    match groupId.map jsTrim with
    | some g =>
      if g = "" then none
      else
        match (groups.lookup g).orElse fun _ => groups.lookup ("group:" ++ g) with
        | some entry => entry.requireMention
        | none => none
    | none => none
  match fromEntry with
  | some b => b
  | none =>
    match (groups.lookup "*").bind (·.requireMention) with
    | some b => b
    | none =>
      match config.requireMention with
      | some b => b
      | none => true

/-- `resolveGroupMemberAllowFrom` (runtime.ts 2494-2509): the member
allow-list of the group, looked up under the direct key then the `group:`
alias, normalised. -/
def resolveGroupMemberAllowFrom (config : WechatAccountConfig)
    (groupId : Option String) : List String :=
  let groupMembers := config.groupMembers.getD []
  match groupId.map jsTrim with
  | some g =>
    if g = "" then []
    else
      match (groupMembers.lookup g).orElse fun _ => groupMembers.lookup ("group:" ++ g) with
      | some list => normalizeAllowFromEntries (some list)
      | none => []
  | none => []

/-! ### Inbound messages and the inbound gate
(src/src/runtime.ts lines 2625-2752) -/

/-- `WechatMessage` (src/src/types.ts).  The tri-state mention flag
(`boolean | number | undefined`) is modelled by its truth value when
present. -/
structure WechatMessage where
  id : Nat := 0
  newMsgId : Nat := 0
  msgType : Nat := 0
  content : Option String := none
  fromUserName : String := ""
  toUserName : String := ""
  isGroupMsg : Bool := false
  isMentioned : Option Bool := none
  actualSender : Option String := none
  createTimeMsg : Nat := 0
  senderNickname : Option String := none
deriving DecidableEq, Inhabited

/-- `resolveWechatSenderId` (runtime.ts 2434-2439): for a group message the
actual sender when truthy, otherwise the chat id. -/
def resolveWechatSenderId (msg : WechatMessage) : String :=
  if msg.isGroupMsg then
    match msg.actualSender with
    | some s => if s = "" then msg.fromUserName else s
    | none => msg.fromUserName
  else msg.fromUserName

/-- Helper for `dedupFirst`. -/
def dedupFirstAux (seen : List String) : List String → List String
  | [] => []
  | x :: xs =>
    if seen.contains x then dedupFirstAux seen xs
    else x :: dedupFirstAux (x :: seen) xs

/-- Model of `Array.from(new Set(l))`: keep the first occurrence of each
element, preserving order. -/
def dedupFirst (l : List String) : List String := dedupFirstAux [] l

/-- Outcome of the inbound gate of `processWechatInboundMessage` (each early
`return` of runtime.ts 2640-2752 is a distinct denial; reaching the reply
pipeline is `proceed`). -/
inductive WechatDecision where
  | ignoredEmpty
  | deniedGroupDisabled
  | deniedGroupNotAllowed
  | deniedNoMention
  | deniedDmDisabled
  | deniedDmUnauthorized
  | deniedGroupCommandUnauthorized
  | proceed
deriving DecidableEq

/-- External collaborator inputs of the inbound gate: the channel-defaults
group policy, the pairing-store allow list (`readAllowFromStore`), and the
plugin-sdk command helpers (`shouldComputeCommandAuthorized`,
`resolveCommandAuthorizedFromAuthorizers`, `isControlCommandMessage`), all
of which live outside this repository. -/
structure InboundEnv where
  defaultGroupPolicy : Option GroupPolicy := none
  storeAllowFrom : List String := []
  shouldComputeAuth : Bool := false
  resolvedCommandAuthorized : Option Bool := none
  isControlCommand : Bool := false
deriving DecidableEq

/-- `account.config.groupPolicy ?? cfg.channels?.defaults?.groupPolicy ??
"allowlist"` (runtime.ts 2649-2650). -/
def resolvedGroupPolicy (env : InboundEnv) (config : WechatAccountConfig) : GroupPolicy :=
  ((config.groupPolicy).orElse fun _ => env.defaultGroupPolicy).getD .allowlist

/-- The group-allowlist check of `processWechatInboundMessage`
(runtime.ts 2657-2665): under policy `allowlist`, a conversation rejected by
`isGroupAllowed` whose sender is not on the group's member allow-list is an
early return. -/
def wechatGroupAllowGate (env : InboundEnv) (config : WechatAccountConfig)
    (msg : WechatMessage) : Option WechatDecision :=
  if resolvedGroupPolicy env config == .allowlist then
    if !(isGroupAllowed msg.fromUserName (config.groups.getD [])) then
      if !(isSenderAllowed (resolveWechatSenderId msg)
          (resolveGroupMemberAllowFrom config (some msg.fromUserName))) then
        some .deniedGroupNotAllowed
      else none
    else none
  else none

/-- The mention check of `processWechatInboundMessage`
(runtime.ts 2667-2676): when the resolved `requireMention` is true, an
absent or falsy mention flag is an early return. -/
def wechatMentionGate (config : WechatAccountConfig) (msg : WechatMessage) :
    Option WechatDecision :=
  if resolveGroupRequireMention config (some msg.fromUserName) then
    if !(msg.isMentioned.getD false) then some .deniedNoMention else none
  else none

/-- The group-message section of `processWechatInboundMessage`
(runtime.ts 2652-2676): `some d` is an early return with decision `d`,
`none` falls through. -/
def wechatGroupGate (env : InboundEnv) (config : WechatAccountConfig)
    (msg : WechatMessage) : Option WechatDecision :=
  if msg.isGroupMsg then
    if resolvedGroupPolicy env config == .disabled then some .deniedGroupDisabled
    else (wechatGroupAllowGate env config msg).orElse fun _ => wechatMentionGate config msg
  else none

/-- `effectiveAllowFrom` for the wechat DM branch (runtime.ts 2678-2691):
the configured `allowFrom` merged with the pairing-store entries
(`Array.from(new Set([...allowFromConfig, ...storeAllowFrom]))`); the store
is only read for non-group messages when the DM policy is not `open` or a
command-authorisation decision is needed. -/
def wechatEffectiveAllowFrom (env : InboundEnv) (config : WechatAccountConfig)
    (msg : WechatMessage) : List String :=
  let dmPolicy := config.dmPolicy.getD .allowlist
  let allowFromConfig := normalizeAllowFromEntries config.allowFrom
  let storeAllowFrom :=
    if !msg.isGroupMsg && (!(dmPolicy == .openPolicy) || env.shouldComputeAuth) then
      normalizeAllowFromEntries (some env.storeAllowFrom)
    else []
  dedupFirst (allowFromConfig ++ storeAllowFrom)

/-- The direct-message section of `processWechatInboundMessage`
(runtime.ts 2706-2743).  The pairing branch performs side effects
(pairing-code upsert and reply) but still returns without forwarding, so it
is the same denial here. -/
def wechatDmGate (env : InboundEnv) (config : WechatAccountConfig)
    (msg : WechatMessage) : Option WechatDecision :=
  let dmPolicy := config.dmPolicy.getD .allowlist
  if !msg.isGroupMsg then
    if dmPolicy == .disabled then some .deniedDmDisabled
    else if !(dmPolicy == .openPolicy) &&
        !(isSenderAllowed (resolveWechatSenderId msg) (wechatEffectiveAllowFrom env config msg)) then
      some .deniedDmUnauthorized
    else none
  else none

/-- The group control-command section (runtime.ts 2694-2704 and
2745-2752): `commandAuthorized` is computed externally only when
`shouldComputeCommandAuthorized` holds. -/
def wechatCommandGate (env : InboundEnv) (msg : WechatMessage) : Option WechatDecision :=
  let commandAuthorized :=
    if env.shouldComputeAuth then env.resolvedCommandAuthorized else none
  if msg.isGroupMsg && env.isControlCommand && !(commandAuthorized == some true) then
    some .deniedGroupCommandUnauthorized
  else none

/-- The gating portion of `processWechatInboundMessage`
(runtime.ts 2625-2752), translated early-return by early-return and composed
from the stage functions above. -/
def processWechatInboundDecision (env : InboundEnv)
    (config : WechatAccountConfig) (msg : WechatMessage) : WechatDecision :=
  if (msg.content.map jsTrim).getD "" = "" then .ignoredEmpty
  else
    match wechatGroupGate env config msg with
    | some d => d
    | none =>
      match wechatDmGate env config msg with
      | some d => d
      | none =>
        match wechatCommandGate env msg with
        | some d => d
        | none => .proceed

/-! ### Debounce admission, merge and flush
(src/src/runtime.ts lines 2859-2872 and 3410-3428) -/

/-- `shouldDebounce` (runtime.ts 3410-3416): buffer only events with
non-empty trimmed text that are not control commands (the classifier is an
external plugin-sdk helper, passed as a flag). -/
def shouldDebounce (isControlCommand : Bool) (msg : WechatMessage) : Bool :=
  let text := (msg.content.map jsTrim).getD ""
  if text = "" then false else !isControlCommand

/-- `mergeWechatInboundMessages` (runtime.ts 2859-2872): join the non-empty
trimmed texts with newlines, OR the mention flags, take everything else from
the last buffered event.  The source indexes `entries[entries.length - 1]`;
it is only ever called with at least one entry, so the `default` for an
empty list is immaterial junk. -/
def mergeWechatInboundMessages (entries : List WechatMessage) : WechatMessage :=
  let last := (entries.getLast?).getD default
  let mergedContent :=
    jsJoin "\n" ((entries.map fun m => (m.content.map jsTrim).getD "").filter (· ≠ ""))
  let wasMentioned := entries.any fun m => m.isMentioned.getD false
  let content := if mergedContent ≠ "" then mergedContent else (last.content).getD ""
  { last with
    content := some content
    isMentioned := if wasMentioned then some true else last.isMentioned }

/-- The `onFlush` callback of the inbound debouncer (runtime.ts 3417-3428):
an empty bucket is dropped, a single-event bucket is forwarded unchanged,
a larger bucket is forwarded merged. -/
def debounceFlush (entries : List WechatMessage) : Option WechatMessage :=
  match entries.getLast? with
  | none => none
  | some last =>
    if entries.length = 1 then some last
    else some (mergeWechatInboundMessages entries)

/-! ### The RuoYi plugin variant
(src/src/runtime.ts lines 136-220 and 272-386)

The repository bundles a near-duplicate strict-allowlist variant.  Its
helpers differ from the wechat variant in the recognised channel schemes
(`wechat-channel` / `ruoyi-wechat` / `ry`), in `resolveGroupRequireMention`
(no `group:` alias), and its DM branch reads no pairing store
(`effectiveAllowFrom = allowFromConfig`, line 325). -/

/-- The anchored case-insensitive replacement of
`/^(wechat-channel|ruoyi-wechat|ry):/i` in `normalizeRuoYiTarget`
(runtime.ts 136-140). -/
def stripRuoYiScheme (s : String) : String :=
  if jsStartsWith (jsLower s) "wechat-channel:" then jsDrop s 15
  else if jsStartsWith (jsLower s) "ruoyi-wechat:" then jsDrop s 13
  else if jsStartsWith (jsLower s) "ry:" then jsDrop s 3
  else s

/-- `normalizeRuoYiTarget` (runtime.ts 136-140). -/
def normalizeRuoYiTarget (raw : Option String) : Option String :=
  match raw with
  | none => none
  | some s =>
    let trimmed := jsTrim s
    if trimmed = "" then none else some (stripRuoYiScheme trimmed)

/-- The RuoYi copy of `normalizeAllowEntry` (runtime.ts 142-147). -/
def ruoYiNormalizeAllowEntry (entry : String) : String :=
  let raw := jsTrim entry
  if raw = "" then ""
  else if raw = "*" then "*"
  else (normalizeRuoYiTarget (some raw)).getD raw

/-- The RuoYi copy of `normalizeAllowFromEntries` (runtime.ts 149-155). -/
def ruoYiNormalizeAllowFromEntries (allowFrom : Option (List String)) : List String :=
  match allowFrom with
  | none => []
  | some l => ((l.map ruoYiNormalizeAllowEntry).map jsTrim).filter (· ≠ "")

/-- The RuoYi copy of `isSenderAllowed` (runtime.ts 157-161). -/
def ruoYiIsSenderAllowed (senderId : String) (allowFrom : List String) : Bool :=
  if allowFrom.contains "*" then true
  else
    let normalizedSender := jsLower (ruoYiNormalizeAllowEntry senderId)
    allowFrom.any fun entry => jsLower (ruoYiNormalizeAllowEntry entry) == normalizedSender

/-- The RuoYi copy of `resolveGroupRequireMention` (runtime.ts 187-203):
unlike the wechat variant it consults only the direct group key, with no
`group:` alias. -/
def ruoYiResolveGroupRequireMention (config : WechatAccountConfig)
    (groupId : Option String) : Bool :=
  let groups := config.groups.getD []
  let fromEntry : Option Bool :=
    match groupId.map jsTrim with
    | some g =>
      if g = "" then none
      else
        match groups.lookup g with
        | some entry => entry.requireMention
        | none => none
    | none => none
  match fromEntry with
  | some b => b
  | none =>
    match (groups.lookup "*").bind (·.requireMention) with
    | some b => b
    | none =>
      match config.requireMention with
      | some b => b
      | none => true

/-- The RuoYi copy of `resolveGroupMemberAllowFrom` (runtime.ts 205-220). -/
def ruoYiResolveGroupMemberAllowFrom (config : WechatAccountConfig)
    (groupId : Option String) : List String :=
  let groupMembers := config.groupMembers.getD []
  match groupId.map jsTrim with
  | some g =>
    if g = "" then []
    else
      match (groupMembers.lookup g).orElse fun _ => groupMembers.lookup ("group:" ++ g) with
      | some list => ruoYiNormalizeAllowFromEntries (some list)
      | none => []
  | none => []

/-- The group-allowlist check of `handleRuoYiInboundMessage`
(runtime.ts 299-307), using the RuoYi helper copies. -/
def ruoYiGroupAllowGate (env : InboundEnv) (config : WechatAccountConfig)
    (msg : WechatMessage) : Option WechatDecision :=
  if resolvedGroupPolicy env config == .allowlist then
    if !(isGroupAllowed msg.fromUserName (config.groups.getD [])) then
      if !(ruoYiIsSenderAllowed (resolveWechatSenderId msg)
          (ruoYiResolveGroupMemberAllowFrom config (some msg.fromUserName))) then
        some .deniedGroupNotAllowed
      else none
    else none
  else none

/-- The mention check of `handleRuoYiInboundMessage` (runtime.ts 309-317). -/
def ruoYiMentionGate (config : WechatAccountConfig) (msg : WechatMessage) :
    Option WechatDecision :=
  if ruoYiResolveGroupRequireMention config (some msg.fromUserName) then
    if !(msg.isMentioned.getD false) then some .deniedNoMention else none
  else none

/-- The group-message section of `handleRuoYiInboundMessage`
(runtime.ts 294-318).  `isGroupAllowed` is byte-identical in both variants
(runtime.ts 163-185 and 2447-2469), so the same translation is used. -/
def ruoYiGroupGate (env : InboundEnv) (config : WechatAccountConfig)
    (msg : WechatMessage) : Option WechatDecision :=
  if msg.isGroupMsg then
    if resolvedGroupPolicy env config == .disabled then some .deniedGroupDisabled
    else (ruoYiGroupAllowGate env config msg).orElse fun _ => ruoYiMentionGate config msg
  else none

/-- The direct-message section of `handleRuoYiInboundMessage`
(runtime.ts 320-377): the strict allowlist uses only the configured
`allowFrom` ("严格白名单", lines 324-325) — no pairing-store read. -/
def ruoYiDmGate (config : WechatAccountConfig) (msg : WechatMessage) :
    Option WechatDecision :=
  let dmPolicy := config.dmPolicy.getD .allowlist
  if !msg.isGroupMsg then
    if dmPolicy == .disabled then some .deniedDmDisabled
    else if !(dmPolicy == .openPolicy) &&
        !(ruoYiIsSenderAllowed (resolveWechatSenderId msg)
            (ruoYiNormalizeAllowFromEntries config.allowFrom)) then
      some .deniedDmUnauthorized
    else none
  else none

/-- The gating portion of `handleRuoYiInboundMessage` (runtime.ts 272-386),
identical in structure to `processWechatInboundDecision`. -/
def handleRuoYiInboundDecision (env : InboundEnv)
    (config : WechatAccountConfig) (msg : WechatMessage) : WechatDecision :=
  if (msg.content.map jsTrim).getD "" = "" then .ignoredEmpty
  else
    match ruoYiGroupGate env config msg with
    | some d => d
    | none =>
      match ruoYiDmGate config msg with
      | some d => d
      | none =>
        match wechatCommandGate env msg with
        | some d => d
        | none => .proceed

/-! ### The WebSocket connection client (src/src/websocket.ts)

Outbound primitives: `send` writes one frame when the socket exists and is
`OPEN`, otherwise logs a "not connected" warning and drops the frame; there
is no buffer anywhere in the class. -/

/-- `WebSocket.OPEN` of the WHATWG WebSocket API. -/
def WS_OPEN : Nat := 1

/-- A socket handle with its `readyState`. -/
structure WsSocket where
  id : Nat := 0
  readyState : Nat := WS_OPEN
deriving DecidableEq

/-- Wire frames serialised by the outbound primitives
(websocket.ts 145-183). -/
inductive WireFrame where
  | authFrame (robotWxid : String)
  | sendTextFrame (toWxid content : String) (mentions : List String)
  | sendImageFrame (toWxid imageUrl : String)
  | markProcessedFrame (messageIds : List Nat)
  | queryContactsFrame (contactType : String)
deriving DecidableEq

/-- Observable outcome of one `send` call: the frames written to the socket
and the warnings logged. -/
structure SendOutcome where
  frames : List WireFrame
  warnings : List String
deriving DecidableEq

/-- `send` (websocket.ts 134-140): write the frame if
`this.ws && this.ws.readyState === WebSocket.OPEN`, else warn
"未连接，发送失败" and do nothing — no buffering, no retry. -/
def clientSend (ws : Option WsSocket) (frame : WireFrame) : SendOutcome :=
  match ws with
  | some w =>
    if w.readyState = WS_OPEN then { frames := [frame], warnings := [] }
    else { frames := [], warnings := ["[WeChat WebSocket] 未连接，发送失败"] }
  | none => { frames := [], warnings := ["[WeChat WebSocket] 未连接，发送失败"] }

/-- `sendText` (websocket.ts 145-152); `mentions` is the `at` array of the
wire frame. -/
def clientSendText (ws : Option WsSocket) (toWxid content : String)
    (mentions : List String) : SendOutcome :=
  clientSend ws (.sendTextFrame toWxid content mentions)

/-- `sendImage` (websocket.ts 157-163). -/
def clientSendImage (ws : Option WsSocket) (toWxid imageUrl : String) : SendOutcome :=
  clientSend ws (.sendImageFrame toWxid imageUrl)

/-- `markProcessed` (websocket.ts 168-173). -/
def clientMarkProcessed (ws : Option WsSocket) (messageIds : List Nat) : SendOutcome :=
  clientSend ws (.markProcessedFrame messageIds)

/-- `queryContacts` (websocket.ts 178-183). -/
def clientQueryContacts (ws : Option WsSocket) (contactType : String) : SendOutcome :=
  clientSend ws (.queryContactsFrame contactType)

/-- `isConnected` (websocket.ts 188-190). -/
def clientIsConnected (ws : Option WsSocket) : Bool :=
  match ws with
  | some w => w.readyState = WS_OPEN
  | none => false

/-! #### Reconnection state machine (websocket.ts 25-129)

The class fields `ws`, `reconnectTimer`, `reconnectAttempts` are modelled
together with the host timer table: `pending` lists the timers that have
been created with `setTimeout` and neither fired nor been cleared, as
`(timer id, delay ms)` pairs.  `nextId` supplies fresh socket/timer ids. -/

/-- State of one `WechatWebSocketClient` plus the host timer table. -/
structure ClientMachine where
  ws : Option Nat := none
  reconnectTimer : Option Nat := none
  reconnectAttempts : Nat := 0
  nextId : Nat := 0
  pending : List (Nat × Nat) := []
deriving DecidableEq

/-- `maxReconnectAttempts` (websocket.ts 12). -/
def maxReconnectAttempts : Nat := 10

/-- The backoff delay computed at websocket.ts 121 after the attempt counter
has been incremented to `n`:
`Math.min(1000 * Math.pow(2, n), 30000)`. -/
def reconnectDelay (n : Nat) : Nat := min (1000 * 2 ^ n) 30000

/-- `scheduleReconnect` (websocket.ts 114-129): give up at the attempt cap;
otherwise increment the counter, create a timer with the backoff delay and
store its handle in `reconnectTimer` — the previous handle is overwritten
without `clearTimeout`. -/
def scheduleReconnect (s : ClientMachine) : ClientMachine :=
  if s.reconnectAttempts ≥ maxReconnectAttempts then s
  else
    let n := s.reconnectAttempts + 1
    { s with
      reconnectAttempts := n
      reconnectTimer := some s.nextId
      pending := (s.nextId, reconnectDelay n) :: s.pending
      nextId := s.nextId + 1 }

/-- `connect()` (websocket.ts 25-94): create a fresh socket and install
handlers.  It touches neither `reconnectTimer` nor `pending`. -/
def connectCall (s : ClientMachine) : ClientMachine :=
  { s with ws := some s.nextId, nextId := s.nextId + 1 }

/-- The `onopen` handler (websocket.ts 34-45): reset the attempt counter. -/
def openEvent (s : ClientMachine) : ClientMachine :=
  { s with reconnectAttempts := 0 }

/-- The `onclose` handler (websocket.ts 87-93): schedule a reconnect. -/
def closeEvent (s : ClientMachine) : ClientMachine :=
  scheduleReconnect s

/-- A pending reconnect timer fires (websocket.ts 126-128): it leaves the
pending table and its callback invokes `connect()`; the stored
`reconnectTimer` handle is not cleared by the callback. -/
def timerFire (s : ClientMachine) (t : Nat) : ClientMachine :=
  if s.pending.any (fun p => p.1 = t) then
    connectCall { s with pending := s.pending.filter (fun p => p.1 ≠ t) }
  else s

/-- `disconnect()` (websocket.ts 99-109): `clearTimeout` the stored handle
(if any) and null it, then close and null the socket. -/
def disconnectCall (s : ClientMachine) : ClientMachine :=
  let s1 :=
    match s.reconnectTimer with
    | some t => { s with pending := s.pending.filter (fun p => p.1 ≠ t), reconnectTimer := none }
    | none => s
  match s1.ws with
  | some _ => { s1 with ws := none }
  | none => s1

/-- Reachability of client states from the initial state under the class's
operations and the host events (socket open/close, timer firing). -/
inductive ClientReachable : ClientMachine → Prop where
  | init : ClientReachable {}
  | connect {s} : ClientReachable s → ClientReachable (connectCall s)
  | opened {s} : ClientReachable s → s.ws ≠ none → ClientReachable (openEvent s)
  | closed {s} : ClientReachable s → s.ws ≠ none → ClientReachable (closeEvent s)
  | fired {s t} : ClientReachable s → ClientReachable (timerFire s t)
  | disconnected {s} : ClientReachable s → ClientReachable (disconnectCall s)

/-! ### Outbound media pipeline (src/src/runtime.ts lines 1980-2271) -/

/-- Parsed WHATWG URL slice used by the media helpers. -/
structure ParsedUrl where
  pathname : String := ""
  queryParams : List (String × String) := []
deriving DecidableEq

/-- Host-platform and plugin-sdk functions used by the media pipeline but
implemented outside this repository: the WHATWG `URL` parser (`none` models
a constructor throw), `URLSearchParams` parsing, `decodeURIComponent`
(`none` models a throw), numeric parsing (`Number.parseFloat` composed with
the `Number.isFinite` check and `Math.trunc` of runtime.ts 2046-2051), and
the plugin-sdk helper `getFileExtension` (`none` models a falsy result). -/
structure JsHost where
  parseUrl : String → Option ParsedUrl
  parseQuery : String → List (String × String)
  decodeComponent : String → Option String
  parseFloatTrunc : String → Option Int
  getFileExt : String → Option String

/-- `parseDuration` (runtime.ts 2046-2051): falsy input gives `undefined`,
otherwise parse, reject non-finite values, truncate. -/
def parseDuration (host : JsHost) (raw : Option String) : Option Int :=
  match raw with
  | none => none
  | some r => if r = "" then none else host.parseFloatTrunc r

/-- `readQueryValue` (runtime.ts 2053-2061): the first listed key whose
value is present with non-blank text, returned untrimmed. -/
def readQueryValue (params : List (String × String)) : List String → Option String
  | [] => none
  | k :: ks =>
    match params.lookup k with
    | some v => if jsTrim v ≠ "" then some v else readQueryValue params ks
    | none => readQueryValue params ks

/-- JavaScript truthiness of an optional string: `undefined` and `""` are
falsy. -/
def optTruthy (o : Option String) : Bool :=
  match o with
  | some s => s ≠ ""
  | none => false

/-- The JavaScript idiom `x?.trim() || undefined`. -/
def trimOrNone (o : Option String) : Option String :=
  match o with
  | some s => if jsTrim s = "" then none else some (jsTrim s)
  | none => none

/-- `MediaUrlMeta` (runtime.ts 2013-2021). -/
structure MediaUrlMeta where
  isEmojiScheme : Bool := false
  emojiMd5 : Option String := none
  emojiSize : Option String := none
  voiceDuration : Option Int := none
  videoDuration : Option Int := none
  thumbUrl : Option String := none
  fileName : Option String := none
deriving DecidableEq

/-- `parseMediaUrlMeta` (runtime.ts 2063-2114): either the `emoji:` scheme
branch (string munging plus `URLSearchParams`) or the generic URL branch
reading hint query parameters; a `URL` constructor throw yields the empty
meta. -/
def parseMediaUrlMeta (host : JsHost) (mediaUrl : String) : MediaUrlMeta :=
  let trimmed := jsTrim mediaUrl
  if trimmed = "" then {}
  else if jsStartsWith (jsLower trimmed) "emoji:" then
    let afterScheme := jsDrop trimmed 6
    let withoutScheme :=
      if jsStartsWith afterScheme "//" then jsDrop afterScheme 2 else afterScheme
    let pieces := (jsSplitChar withoutScheme '?').take 2
    let pathPart := (pieces.get? 0).getD ""
    let queryPart := pieces.get? 1
    let searchParams := host.parseQuery (queryPart.getD "")
    let pathToken := (((jsSplitChar pathPart '/').filter (· ≠ "")).get? 0).getD ""
    let tokenPieces :=
      if pathToken.data.contains ':' then (jsSplitChar pathToken ':').take 2
      else [pathToken, ""]
    let md5Token := (tokenPieces.get? 0).getD ""
    let sizeToken := (tokenPieces.get? 1).getD ""
    let emojiMd5 :=
      if jsTrim md5Token ≠ "" then some (jsTrim md5Token)
      else readQueryValue searchParams ["emojiMd5", "md5"]
    let emojiSize :=
      if jsTrim sizeToken ≠ "" then some (jsTrim sizeToken)
      else readQueryValue searchParams ["emojiSize", "size"]
    { isEmojiScheme := true
      emojiMd5 := trimOrNone emojiMd5
      emojiSize := trimOrNone emojiSize }
  else
    match host.parseUrl trimmed with
    | some url =>
      let searchParams := url.queryParams
      let emojiMd5 := readQueryValue searchParams ["emojiMd5", "md5"]
      let emojiSize := readQueryValue searchParams ["emojiSize", "size"]
      let thumbUrl := readQueryValue searchParams ["thumbUrl", "thumb"]
      let duration := parseDuration host (readQueryValue searchParams ["duration"])
      let voiceDuration := parseDuration host (readQueryValue searchParams ["voiceDuration"])
      let videoDuration := parseDuration host (readQueryValue searchParams ["videoDuration"])
      let fileName := readQueryValue searchParams ["fileName", "filename", "name"]
      { isEmojiScheme := false
        emojiMd5 := trimOrNone emojiMd5
        emojiSize := trimOrNone emojiSize
        thumbUrl := trimOrNone thumbUrl
        voiceDuration := voiceDuration.orElse fun _ => duration
        videoDuration := videoDuration.orElse fun _ => duration
        fileName := trimOrNone fileName }
    | none => {}

/-- `inferFileNameFromMediaUrl` (runtime.ts 2116-2135): last non-empty path
segment of the parsed URL (percent-decoded when possible); when URL parsing
throws, the text after the last slash or backslash of the part before any
`?`/`#`. -/
def inferFileNameFromMediaUrl (host : JsHost) (mediaUrl : String) : Option String :=
  let trimmed := jsTrim mediaUrl
  if trimmed = "" then none
  else
    match host.parseUrl trimmed with
    | some url =>
      let parts := (jsSplitChar url.pathname '/').filter (· ≠ "")
      match parts.getLast? with
      | none => none
      | some last =>
        if last = "" then none else some ((host.decodeComponent last).getD last)
    | none =>
      let cleaned := ((jsSplitAny trimmed ['?', '#']).get? 0).getD ""
      let parts := jsSplitAny cleaned ['\\', '/']
      match parts.getLast? with
      | none => none
      | some last => if last = "" then none else some last

/-- `resolveWechatOutboundTarget` (runtime.ts 2405-2409).  Note the result
can be `some ""`: a raw target such as `wx:` trims non-empty and then the
scheme strip leaves the empty string. -/
def resolveWechatOutboundTarget (raw : Option String) : Option String :=
  match raw with
  | none => none
  | some s =>
    let trimmed := jsTrim s
    if trimmed = "" then none
    else some ((normalizeWechatTarget (some trimmed)).getD trimmed)

/-- `requireWechatOutboundTarget` (runtime.ts 2411-2417): `if (!resolved)
throw` fires on any falsy resolved target — both `undefined` and the empty
string — with 微信目标不能为空. -/
def requireWechatOutboundTarget (raw : Option String) : Except String String :=
  match resolveWechatOutboundTarget raw with
  | some resolved =>
    if resolved = "" then .error "微信目标不能为空" else .ok resolved
  | none => .error "微信目标不能为空"

/-- `AUDIO_EXTS` (runtime.ts 1980-1990). -/
def AUDIO_EXTS : List String :=
  [".silk", ".amr", ".mp3", ".wav", ".m4a", ".aac", ".ogg", ".opus", ".flac"]

/-- `VIDEO_EXTS` (runtime.ts 1991-1999). -/
def VIDEO_EXTS : List String :=
  [".mp4", ".mov", ".mkv", ".webm", ".avi", ".mpeg", ".mpg"]

/-- `IMAGE_EXTS` (runtime.ts 2000-2009). -/
def IMAGE_EXTS : List String :=
  [".jpg", ".jpeg", ".png", ".gif", ".webp", ".bmp", ".heic", ".heif"]

/-- `MediaKind` (runtime.ts 2011). -/
inductive MediaKind where
  | image
  | voice
  | video
  | file
  | emoji
deriving DecidableEq

/-- `MediaHints` (runtime.ts 2023-2032); `asVoice` is used only for its
truthiness. -/
structure MediaHints where
  contentType : Option String := none
  asVoice : Bool := false
  fileName : Option String := none
  voiceDuration : Option Int := none
  videoDuration : Option Int := none
  thumbUrl : Option String := none
  emojiMd5 : Option String := none
  emojiSize : Option String := none
deriving DecidableEq

/-- `ResolvedMediaSpec` (runtime.ts 2034-2044). -/
structure ResolvedMediaSpec where
  kind : MediaKind := .file
  mediaUrl : Option String := none
  fileName : Option String := none
  voiceDuration : Option Int := none
  videoDuration : Option Int := none
  thumbUrl : Option String := none
  emojiMd5 : Option String := none
  emojiSize : Option String := none
  isEmojiScheme : Bool := false
deriving DecidableEq

/-- `resolveMediaSpec` (runtime.ts 2137-2187): emoji scheme or complete
md5+size hints give `emoji`; then the explicit voice hint, then content-type
`audio/`/`video/`/`image/`, then the recognised file extension, and `file`
otherwise. -/
def resolveMediaSpec (host : JsHost) (mediaUrl : String)
    (hints : MediaHints) : ResolvedMediaSpec :=
  let meta := parseMediaUrlMeta host mediaUrl
  let emojiMd5 := hints.emojiMd5.orElse fun _ => meta.emojiMd5
  let emojiSize := hints.emojiSize.orElse fun _ => meta.emojiSize
  if meta.isEmojiScheme || (optTruthy emojiMd5 && optTruthy emojiSize) then
    { kind := .emoji
      emojiMd5 := emojiMd5
      emojiSize := emojiSize
      mediaUrl := some mediaUrl
      isEmojiScheme := meta.isEmojiScheme }
  else
    let contentType := hints.contentType.map jsLower
    let kind : MediaKind :=
      if hints.asVoice then .voice
      else if (contentType.map (jsStartsWith · "audio/")).getD false then .voice
      else if (contentType.map (jsStartsWith · "video/")).getD false then .video
      else if (contentType.map (jsStartsWith · "image/")).getD false then .image
      else
        match host.getFileExt ((hints.fileName).getD mediaUrl) with
        | some ext =>
          if AUDIO_EXTS.contains ext then .voice
          else if VIDEO_EXTS.contains ext then .video
          else if IMAGE_EXTS.contains ext then .image
          else .file
        | none => .file
    { kind := kind
      mediaUrl := some mediaUrl
      fileName :=
        (hints.fileName.orElse fun _ => meta.fileName).orElse fun _ =>
          inferFileNameFromMediaUrl host mediaUrl
      voiceDuration := hints.voiceDuration.orElse fun _ => meta.voiceDuration
      videoDuration := hints.videoDuration.orElse fun _ => meta.videoDuration
      thumbUrl := hints.thumbUrl.orElse fun _ => meta.thumbUrl
      emojiMd5 := emojiMd5
      emojiSize := emojiSize
      isEmojiScheme := meta.isEmojiScheme }

/-- Modelled from the spec: the wire-client methods invoked by
`sendWechatMedia` (`sendEmoji`, `sendVoice`, `sendVideo`, `sendImage`,
`sendFile`) are absent from the checked-in client class; per spec §4.1/§6
each serialises exactly one command frame, so the pipeline's observable
behaviour is this list of effects (sends and logged warnings). -/
inductive MediaEffect where
  | sentEmoji (toWxid md5 size : String)
  | sentVoice (toWxid url : String) (duration : Int)
  | sentVideo (toWxid url thumbUrl : String) (duration : Int)
  | sentImage (toWxid url : String)
  | sentFile (toWxid url fileName : String)
  | warned (message : String)
deriving DecidableEq

/-- The file name computed by the `fallbackToFile` closure
(runtime.ts 2207-2220): the spec's file name, else the name inferred from
the URL, else `file` + extension, else `file`. -/
def fallbackFileName (host : JsHost) (specFileName : Option String)
    (trimmed : String) : String :=
  let inferredName := specFileName.orElse fun _ => inferFileNameFromMediaUrl host trimmed
  let ext := host.getFileExt trimmed
  inferredName.getD (match ext with | some e => "file" ++ e | none => "file")

/-- The `fallbackToFile` closure of `sendWechatMedia`
(runtime.ts 2207-2220). -/
def fallbackToFile (host : JsHost) (strict : Bool) (chatId : String)
    (specFileName : Option String) (trimmed : String) :
    Except String (List MediaEffect) :=
  let fileName := fallbackFileName host specFileName trimmed
  if fileName = "" then
    if strict then .error "fileName required for file send"
    else .ok [.warned "[WeChat] Missing fileName; skip file send."]
  else .ok [.sentFile chatId trimmed fileName]

/-- `sendWechatMedia` (runtime.ts 2189-2271).  `.error` models a thrown
`Error`; the effect list records sends and warnings in order.  `strict`
defaults to `false` at the call sites of the reply pipeline. -/
def sendWechatMedia (host : JsHost) (chatIdRaw mediaUrl : String)
    (hints : MediaHints) (strict : Bool) : Except String (List MediaEffect) :=
  match requireWechatOutboundTarget (some chatIdRaw) with
  | .error e => .error e
  | .ok chatId =>
    let trimmed := jsTrim mediaUrl
    if trimmed = "" then .ok []
    else
      let spec := resolveMediaSpec host trimmed hints
      match spec.kind with
      | .emoji =>
        if !(optTruthy spec.emojiMd5) || !(optTruthy spec.emojiSize) then
          if strict then .error "emojiMd5 and emojiSize are required for emoji send"
          else .ok [.warned "[WeChat] emojiMd5 and emojiSize are required for emoji send"]
        else .ok [.sentEmoji chatId (spec.emojiMd5.getD "") (spec.emojiSize.getD "")]
      | .voice =>
        match spec.voiceDuration with
        | none =>
          if strict then .error "voiceDuration required for voice send"
          else
            match fallbackToFile host strict chatId spec.fileName trimmed with
            | .ok effects =>
              .ok (.warned "[WeChat] voiceDuration missing; fallback to file send." :: effects)
            | .error e => .error e
        | some d => .ok [.sentVoice chatId trimmed d]
      | .video =>
        if !(optTruthy spec.thumbUrl) || spec.videoDuration == none then
          if strict then .error "thumbUrl and videoDuration required for video send"
          else
            match fallbackToFile host strict chatId spec.fileName trimmed with
            | .ok effects =>
              .ok (.warned "[WeChat] video metadata missing; fallback to file send." :: effects)
            | .error e => .error e
        else
          .ok [.sentVideo chatId trimmed (spec.thumbUrl.getD "") (spec.videoDuration.getD 0)]
      | .image => .ok [.sentImage chatId trimmed]
      | .file => fallbackToFile host strict chatId spec.fileName trimmed

/-! ## Theorems -/

theorem contains_iff_mem (L : List String) (a : String) :
    L.contains a = true ↔ a ∈ L :=
  ⟨List.mem_of_elem_eq_true, List.elem_eq_true_of_mem⟩

/-- C2: `isSenderAllowed(s, L)` is true iff `L` contains the literal
wildcard entry `*`, or the normalisation of `s` (trim, strip a recognised
channel prefix, lower-case) equals the normalisation of some entry of `L`. -/
theorem claim_C2_isSenderAllowed_iff (s : String) (L : List String) :
    isSenderAllowed s L = true ↔
      "*" ∈ L ∨ ∃ x ∈ L, specNormalize x = specNormalize s := by
  unfold isSenderAllowed
  by_cases h : L.contains "*"
  · simp only [h, if_true, true_iff]
    exact Or.inl ((contains_iff_mem L "*").mp h)
  · rw [Bool.not_eq_true] at h
    simp only [h, Bool.false_eq_true, if_false, List.any_eq_true]
    constructor
    · rintro ⟨x, hx, hbeq⟩
      refine Or.inr ⟨x, hx, ?_⟩
      have := eq_of_beq hbeq
      rwa [jsLower_normalizeAllowEntry, jsLower_normalizeAllowEntry] at this
    · rintro (hw | ⟨x, hx, hnorm⟩)
      · rw [(contains_iff_mem L "*").mpr hw] at h
        exact absurd h (by simp)
      · refine ⟨x, hx, beq_iff_eq.mpr ?_⟩
        rw [jsLower_normalizeAllowEntry, jsLower_normalizeAllowEntry]
        exact hnorm

/-- C3: `isGroupAllowed` behaves exactly as the specification describes —
an explicit entry (direct key or `group:` alias) decides alone, denying iff
`allow=false` or `enabled=false`, independent of any wildcard; with no
explicit entry, a non-disabled `*` entry is required; the empty table
denies. -/
theorem claim_C3_isGroupAllowed_eq_spec (g : String)
    (groups : List (String × WechatGroupConfig)) :
    isGroupAllowed g groups = isGroupAllowedSpec g groups := by
  unfold isGroupAllowed isGroupAllowedSpec
  by_cases h : groups.length = 0
  · have hnil : groups = [] := List.length_eq_zero.mp h
    subst hnil
    simp [explicitGroupEntry, List.lookup]
  · simp only [h, if_false]
    cases explicitGroupEntry g groups with
    | some entry =>
      by_cases hc : (entry.allow == some false || entry.enabled == some false) = true
      · simp [hc]
      · rw [Bool.not_eq_true] at hc
        simp [hc]
    | none => rfl

/-- The order the specification gives for resolving `requireMention`: the
group's own entry (direct key or `group:` alias), then the wildcard `*`
entry, then the account-level setting, defaulting to `true`. -/
def requireMentionChain (config : WechatAccountConfig) (g : String) : Bool :=
  let g' := jsTrim g
  let groups := config.groups.getD []
  let entry : Option WechatGroupConfig :=
    if g' = "" then none
    else (groups.lookup g').orElse fun _ => groups.lookup ("group:" ++ g')
  (((entry.bind fun e => e.requireMention).orElse fun _ =>
      (groups.lookup "*").bind fun w => w.requireMention).orElse fun _ =>
      config.requireMention).getD true

theorem wechatGroupAllowGate_values (env : InboundEnv)
    (config : WechatAccountConfig) (msg : WechatMessage) :
    wechatGroupAllowGate env config msg = none ∨
      wechatGroupAllowGate env config msg = some .deniedGroupNotAllowed := by
  unfold wechatGroupAllowGate
  split_ifs <;> simp

theorem wechatMentionGate_values (config : WechatAccountConfig)
    (msg : WechatMessage) :
    wechatMentionGate config msg = none ∨
      wechatMentionGate config msg = some .deniedNoMention := by
  unfold wechatMentionGate
  split_ifs <;> simp

theorem wechatMentionGate_deny (config : WechatAccountConfig)
    (msg : WechatMessage)
    (hreq : resolveGroupRequireMention config (some msg.fromUserName) = true)
    (hment : msg.isMentioned.getD false = false) :
    wechatMentionGate config msg = some .deniedNoMention := by
  unfold wechatMentionGate
  simp [hreq, hment]

theorem wechatGroupGate_ne_some_proceed (env : InboundEnv)
    (config : WechatAccountConfig) (msg : WechatMessage) :
    wechatGroupGate env config msg ≠ some .proceed := by
  intro h
  unfold wechatGroupGate at h
  by_cases hG : msg.isGroupMsg
  · simp only [hG, if_true] at h
    by_cases hd : (resolvedGroupPolicy env config == GroupPolicy.disabled) = true
    · rw [if_pos hd] at h
      simp at h
    · rw [if_neg hd] at h
      rcases wechatGroupAllowGate_values env config msg with ha | ha <;>
        rcases wechatMentionGate_values config msg with hm | hm <;>
          simp [ha, hm, Option.orElse] at h
  · simp [hG] at h

/-- C4: (1) the `requireMention` value resolved by
`resolveGroupRequireMention` is the first defined boolean in the order
group entry (direct key or `group:` alias) → wildcard `*` entry →
account-level setting → default `true`; (2) a group message whose resolved
`requireMention` is true and whose mention flag is absent or falsy is never
forwarded. -/
theorem claim_C4_requireMention :
    (∀ (config : WechatAccountConfig) (g : String),
      resolveGroupRequireMention config (some g) = requireMentionChain config g) ∧
    (∀ (env : InboundEnv) (config : WechatAccountConfig) (msg : WechatMessage),
      msg.isGroupMsg = true →
      (msg.content.map jsTrim).getD "" ≠ "" →
      resolveGroupRequireMention config (some msg.fromUserName) = true →
      msg.isMentioned.getD false = false →
      processWechatInboundDecision env config msg ≠ .proceed) := by
  constructor
  · intro config g
    unfold resolveGroupRequireMention requireMentionChain
    by_cases hg : jsTrim g = ""
    · simp only [Option.map_some', hg, if_pos rfl, if_true]
      cases hw : ((config.groups.getD []).lookup "*").bind (fun w => w.requireMention) <;>
        cases hacc : config.requireMention <;>
          simp [hw, hacc, Option.orElse, Option.bind]
    · simp only [Option.map_some', hg, if_neg hg, if_false]
      cases he : ((config.groups.getD []).lookup (jsTrim g)).orElse
          (fun _ => (config.groups.getD []).lookup ("group:" ++ jsTrim g)) with
      | some entry =>
        cases hr : entry.requireMention <;>
          cases hw : ((config.groups.getD []).lookup "*").bind (fun w => w.requireMention) <;>
            cases hacc : config.requireMention <;>
              simp [he, hr, hw, hacc, Option.orElse, Option.bind]
      | none =>
        cases hw : ((config.groups.getD []).lookup "*").bind (fun w => w.requireMention) <;>
          cases hacc : config.requireMention <;>
            simp [he, hw, hacc, Option.orElse, Option.bind]
  · intro env config msg hG hc hreq hment heq
    unfold processWechatInboundDecision at heq
    rw [if_neg hc] at heq
    have hgg : wechatGroupGate env config msg = some .deniedNoMention ∨
        wechatGroupGate env config msg = some .deniedGroupDisabled ∨
        wechatGroupGate env config msg = some .deniedGroupNotAllowed := by
      unfold wechatGroupGate
      simp only [hG, if_true]
      by_cases hd : (resolvedGroupPolicy env config == GroupPolicy.disabled) = true
      · rw [if_pos hd]
        simp
      · rw [if_neg hd]
        rcases wechatGroupAllowGate_values env config msg with ha | ha <;>
          simp [ha, Option.orElse, wechatMentionGate_deny config msg hreq hment]
    rcases hgg with hgg | hgg | hgg <;> rw [hgg] at heq <;> simp at heq

/-- Concrete account configuration for the C4 witness: group `G1` requires
a mention. -/
def c4Config : WechatAccountConfig :=
  { groups := some [("G1", { requireMention := some true })] }

/-- Concrete group message for the C4 witness: from group `G1`, non-empty
text, no mention flag. -/
def c4Msg : WechatMessage :=
  { content := some "hello", fromUserName := "G1", isGroupMsg := true,
    actualSender := some "alice" }

theorem claim_C4_requireMention_witness :
    resolveGroupRequireMention c4Config (some "G1") = requireMentionChain c4Config "G1" ∧
    processWechatInboundDecision {} c4Config c4Msg ≠ .proceed :=
  ⟨claim_C4_requireMention.1 c4Config "G1",
   claim_C4_requireMention.2 {} c4Config c4Msg (by decide) (by decide) (by decide) (by decide)⟩

theorem wechatGroupGate_pass (env : InboundEnv) (config : WechatAccountConfig)
    (msg : WechatMessage)
    (hG : msg.isGroupMsg = true)
    (hpol : resolvedGroupPolicy env config = .allowlist)
    (hga : isGroupAllowed msg.fromUserName (config.groups.getD []) = false)
    (hmember : isSenderAllowed (resolveWechatSenderId msg)
      (resolveGroupMemberAllowFrom config (some msg.fromUserName)) = true)
    (hmention : resolveGroupRequireMention config (some msg.fromUserName) = false ∨
      msg.isMentioned.getD false = true) :
    wechatGroupGate env config msg = none := by
  have hag : wechatGroupAllowGate env config msg = none := by
    unfold wechatGroupAllowGate
    simp [hpol, hga, hmember]
  have hmg : wechatMentionGate config msg = none := by
    unfold wechatMentionGate
    cases hmention with
    | inl h => simp [h]
    | inr h => simp [h]
  unfold wechatGroupGate
  simp [hG, hpol, hag, hmg, Option.orElse]

theorem wechatDmGate_of_group (env : InboundEnv) (config : WechatAccountConfig)
    (msg : WechatMessage) (hG : msg.isGroupMsg = true) :
    wechatDmGate env config msg = none := by
  unfold wechatDmGate
  simp [hG]

theorem wechatCommandGate_pass (env : InboundEnv) (msg : WechatMessage)
    (hcmd : env.isControlCommand = false ∨
      (env.shouldComputeAuth = true ∧ env.resolvedCommandAuthorized = some true)) :
    wechatCommandGate env msg = none := by
  unfold wechatCommandGate
  cases hcmd with
  | inl h => simp [h]
  | inr h => simp [h.1, h.2]

/-- C10: under group policy `allowlist`, a group message whose conversation
is rejected by `isGroupAllowed` — including by an explicit `allow=false`
entry — is still admitted when the sender is on the group's member
allow-list, provided the independent mention and control-command gates also
pass. -/
theorem claim_C10_memberAllowOverridesGroupDeny (env : InboundEnv)
    (config : WechatAccountConfig) (msg : WechatMessage)
    (hG : msg.isGroupMsg = true)
    (hc : (msg.content.map jsTrim).getD "" ≠ "")
    (hpol : resolvedGroupPolicy env config = .allowlist)
    (hga : isGroupAllowed msg.fromUserName (config.groups.getD []) = false)
    (hmember : isSenderAllowed (resolveWechatSenderId msg)
      (resolveGroupMemberAllowFrom config (some msg.fromUserName)) = true)
    (hmention : resolveGroupRequireMention config (some msg.fromUserName) = false ∨
      msg.isMentioned.getD false = true)
    (hcmd : env.isControlCommand = false ∨
      (env.shouldComputeAuth = true ∧ env.resolvedCommandAuthorized = some true)) :
    processWechatInboundDecision env config msg = .proceed := by
  unfold processWechatInboundDecision
  rw [if_neg hc, wechatGroupGate_pass env config msg hG hpol hga hmember hmention,
    wechatDmGate_of_group env config msg hG, wechatCommandGate_pass env msg hcmd]

/-- Concrete configuration for the C10 witness: group `G1` is explicitly
disabled (`allow=false`) yet sender `alice` is on its member allow-list;
mention not required. -/
def c10Config : WechatAccountConfig :=
  { groupMembers := some [("G1", ["alice"])],
    groups := some [("G1", { allow := some false, requireMention := some false })] }

/-- Concrete group message for the C10 witness. -/
def c10Msg : WechatMessage :=
  { content := some "hello", fromUserName := "G1", isGroupMsg := true,
    actualSender := some "alice" }

theorem claim_C10_memberAllowOverridesGroupDeny_witness :
    processWechatInboundDecision {} c10Config c10Msg = .proceed :=
  claim_C10_memberAllowOverridesGroupDeny {} c10Config c10Msg (by decide) (by decide)
    (by decide) (by decide) (by decide) (Or.inl (by decide)) (Or.inl (by decide))

/-- C1 (amended): under DM policy `allowlist`, `processWechatInboundMessage`
forwards a direct message iff the sender is allowed against the *effective*
allow list — the configured `allowFrom` merged with the pairing-store
entries — while the strict RuoYi variant forwards iff the sender is allowed
against the configured list alone.  The original claim's "no other source of
allowed ids affects the decision" fails for the wechat variant (see the
counterexample). -/
theorem claim_C1_dmAllowlist (env : InboundEnv) (config : WechatAccountConfig)
    (msg : WechatMessage)
    (hG : msg.isGroupMsg = false)
    (hc : (msg.content.map jsTrim).getD "" ≠ "")
    (hdm : config.dmPolicy = some .allowlist) :
    (processWechatInboundDecision env config msg = .proceed ↔
      isSenderAllowed msg.fromUserName (wechatEffectiveAllowFrom env config msg) = true) ∧
    (handleRuoYiInboundDecision env config msg = .proceed ↔
      ruoYiIsSenderAllowed msg.fromUserName
        (ruoYiNormalizeAllowFromEntries config.allowFrom) = true) := by
  have hsender : resolveWechatSenderId msg = msg.fromUserName := by
    unfold resolveWechatSenderId
    simp [hG]
  have hgg : wechatGroupGate env config msg = none := by
    unfold wechatGroupGate
    simp [hG]
  have hrgg : ruoYiGroupGate env config msg = none := by
    unfold ruoYiGroupGate
    simp [hG]
  have hcg : wechatCommandGate env msg = none := by
    unfold wechatCommandGate
    simp [hG]
  constructor
  · unfold processWechatInboundDecision
    rw [if_neg hc, hgg]
    by_cases hs : isSenderAllowed msg.fromUserName (wechatEffectiveAllowFrom env config msg) = true
    · have hdg : wechatDmGate env config msg = none := by
        unfold wechatDmGate
        simp [hG, hdm, hsender, hs]
      rw [hdg, hcg]
      simp [hs]
    · rw [Bool.not_eq_true] at hs
      have hdg : wechatDmGate env config msg = some .deniedDmUnauthorized := by
        unfold wechatDmGate
        simp [hG, hdm, hsender, hs]
      rw [hdg]
      simp [hs]
  · unfold handleRuoYiInboundDecision
    rw [if_neg hc, hrgg]
    by_cases hs : ruoYiIsSenderAllowed msg.fromUserName
        (ruoYiNormalizeAllowFromEntries config.allowFrom) = true
    · have hdg : ruoYiDmGate config msg = none := by
        unfold ruoYiDmGate
        simp [hG, hdm, hsender, hs]
      rw [hdg, hcg]
      simp [hs]
    · rw [Bool.not_eq_true] at hs
      have hdg : ruoYiDmGate config msg = some .deniedDmUnauthorized := by
        unfold ruoYiDmGate
        simp [hG, hdm, hsender, hs]
      rw [hdg]
      simp [hs]

/-- Account configuration for the C1 counterexample and witness: DM policy
`allowlist` with an empty configured allow list. -/
def c1Config : WechatAccountConfig :=
  { dmPolicy := some .allowlist, allowFrom := some [] }

/-- Environment for the C1 counterexample and witness: the pairing store
holds `alice`. -/
def c1Env : InboundEnv := { storeAllowFrom := ["alice"] }

/-- Direct message from `alice` for the C1 counterexample and witness. -/
def c1Msg : WechatMessage :=
  { content := some "hi", fromUserName := "alice", isGroupMsg := false }

/-- C1 counterexample: with an empty configured allow list but `alice` in
the pairing store, the wechat DM-allowlist gate forwards `alice`'s message
even though she is not in the account's configured allow list — so the
configured list is not the only source of allowed ids. -/
theorem claim_C1_counterexample :
    processWechatInboundDecision c1Env c1Config c1Msg = .proceed ∧
    isSenderAllowed "alice" (normalizeAllowFromEntries c1Config.allowFrom) = false := by
  constructor <;> decide

theorem claim_C1_dmAllowlist_witness :
    (processWechatInboundDecision c1Env c1Config c1Msg = .proceed ↔
      isSenderAllowed "alice" (wechatEffectiveAllowFrom c1Env c1Config c1Msg) = true) ∧
    (handleRuoYiInboundDecision c1Env c1Config c1Msg = .proceed ↔
      ruoYiIsSenderAllowed "alice"
        (ruoYiNormalizeAllowFromEntries c1Config.allowFrom) = true) :=
  claim_C1_dmAllowlist c1Env c1Config c1Msg (by decide) (by decide) (by decide)

/-- C5 (amended): `scheduleReconnect` called with attempt counter `a < 10`
increments it to `n = a + 1` and schedules a timer with delay
`min(1000·2^n, 30000)` ms — so the delay for the n-th reconnect attempt
(1-based, as logged `n/10`) is `min(1000·2^n, 30000)`: the backoff starts at
2 seconds (not 1), doubles per attempt, is monotonically non-decreasing,
is capped at 30 seconds, and nothing further is scheduled once 10 attempts
have been made. -/
theorem claim_C5_backoff :
    (∀ s : ClientMachine, s.reconnectAttempts < maxReconnectAttempts →
      scheduleReconnect s = { s with
        reconnectAttempts := s.reconnectAttempts + 1
        reconnectTimer := some s.nextId
        pending := (s.nextId, reconnectDelay (s.reconnectAttempts + 1)) :: s.pending
        nextId := s.nextId + 1 }) ∧
    (∀ n, reconnectDelay n = min (1000 * 2 ^ n) 30000) ∧
    reconnectDelay 1 = 2000 ∧
    (∀ n m, n ≤ m → reconnectDelay n ≤ reconnectDelay m) ∧
    (∀ n, reconnectDelay n ≤ 30000) ∧
    (∀ s : ClientMachine, maxReconnectAttempts ≤ s.reconnectAttempts →
      scheduleReconnect s = s) := by
  refine ⟨?_, fun n => rfl, by decide, ?_, ?_, ?_⟩
  · intro s h
    unfold scheduleReconnect
    rw [if_neg (Nat.not_le.mpr h)]
  · intro n m h
    unfold reconnectDelay
    exact min_le_min (Nat.mul_le_mul_left 1000 (Nat.pow_le_pow_right (by norm_num) h)) le_rfl
  · intro n
    exact min_le_right _ _
  · intro s h
    unfold scheduleReconnect
    rw [if_pos h]

/-- C5 counterexample: the very first scheduled reconnect delay is 2000 ms,
not the 1000 ms ("backoff starts at 1 second") the claim states — the
counter is incremented before the delay is computed. -/
theorem claim_C5_counterexample :
    (closeEvent (connectCall {})).pending = [(1, 2000)] ∧ (2000 : Nat) ≠ 1000 := by
  constructor <;> decide

theorem claim_C5_backoff_witness :
    scheduleReconnect {} =
      { reconnectAttempts := 1
        reconnectTimer := some 0
        pending := [(0, reconnectDelay 1)]
        nextId := 1 } ∧
    reconnectDelay 1 ≤ reconnectDelay 2 ∧
    scheduleReconnect { reconnectAttempts := 10 } = { reconnectAttempts := 10 } :=
  ⟨claim_C5_backoff.1 {} (by decide),
   claim_C5_backoff.2.2.2.1 1 2 (by decide),
   claim_C5_backoff.2.2.2.2.2 { reconnectAttempts := 10 } (by decide)⟩

/-- C9 (amended): `disconnect()` clears the stored reconnect-timer handle
and cancels exactly that timer; `connect()` cancels nothing — it leaves the
pending-timer table and the stored handle untouched.  Because
`scheduleReconnect` overwrites the stored handle without `clearTimeout`,
more than one pending reconnect timer can exist in reachable states (see
the counterexample). -/
theorem claim_C9_reconnectTimer :
    (∀ s : ClientMachine, (disconnectCall s).reconnectTimer = none) ∧
    (∀ (s : ClientMachine) (t : Nat), s.reconnectTimer = some t →
      (disconnectCall s).pending = s.pending.filter fun p => p.1 ≠ t) ∧
    (∀ s : ClientMachine, (connectCall s).pending = s.pending ∧
      (connectCall s).reconnectTimer = s.reconnectTimer) := by
  refine ⟨?_, ?_, fun s => ⟨rfl, rfl⟩⟩
  · intro s
    unfold disconnectCall
    cases h : s.reconnectTimer <;> simp only [h] <;> cases hw : s.ws <;> simp [hw, h]
  · intro s t h
    unfold disconnectCall
    rw [h]
    cases hw : s.ws <;> simp [hw]

/-- First demo state: one `connect()` whose socket then closes — reconnect
timer 1 pending. -/
def c9Demo1 : ClientMachine := closeEvent (connectCall {})

/-- Second demo state: a new `connect()` while timer 1 is pending. -/
def c9Demo2 : ClientMachine := connectCall c9Demo1

/-- Third demo state: the new socket closes too, scheduling timer 3 while
timer 1 is still pending. -/
def c9Demo3 : ClientMachine := closeEvent c9Demo2

/-- C9 counterexample: a reachable state with two pending reconnect timers,
produced precisely because the intervening `connect()` call cancelled
nothing (`c9Demo2` keeps `c9Demo1`'s non-empty pending table). -/
theorem claim_C9_counterexample :
    ClientReachable c9Demo3 ∧
    c9Demo3.pending.length = 2 ∧
    c9Demo2.pending = c9Demo1.pending ∧
    c9Demo1.pending ≠ [] := by
  refine ⟨?_, by decide, by decide, by decide⟩
  exact .closed (.connect (.closed (.connect .init) (by decide))) (by decide)

theorem claim_C9_reconnectTimer_witness :
    (disconnectCall c9Demo1).reconnectTimer = none ∧
    (disconnectCall c9Demo1).pending = c9Demo1.pending.filter (fun p => p.1 ≠ 1) ∧
    (connectCall c9Demo1).pending = c9Demo1.pending :=
  ⟨claim_C9_reconnectTimer.1 c9Demo1,
   claim_C9_reconnectTimer.2.1 c9Demo1 1 (by decide),
   (claim_C9_reconnectTimer.2.2 c9Demo1).1⟩

theorem String_append_ne_empty_left {x : String} (y : String) (h : x ≠ "") :
    x ++ y ≠ "" := by
  intro he
  apply h
  have hd : (x ++ y).data = [] := by rw [he]
  rw [String.data_append] at hd
  exact String.ext (List.append_eq_nil.mp hd).1

theorem jsJoin_ne_empty {sep : String} {l : List String}
    (hne : l ≠ []) (h : ∀ x ∈ l, x ≠ "") : jsJoin sep l ≠ "" := by
  cases l with
  | nil => exact absurd rfl hne
  | cons x xs =>
    cases xs with
    | nil => exact h x (by simp)
    | cons y ys =>
      show x ++ sep ++ jsJoin sep (y :: ys) ≠ ""
      exact String_append_ne_empty_left _
        (String_append_ne_empty_left _ (h x (by simp)))

/-- C6: flushing a bucket of two or more buffered events (which, by the
admission rule `shouldDebounce`, all carry non-empty trimmed text) forwards
one merged event whose text is the newline-join of the trimmed texts in
arrival order, whose mention flag is truthy iff some buffered flag is
truthy, and whose every other field is the last event's; a single-event
bucket is forwarded unchanged. -/
theorem claim_C6_debounceMerge :
    (∀ (entries : List WechatMessage) (last : WechatMessage),
      entries.getLast? = some last →
      (∀ m ∈ entries, (m.content.map jsTrim).getD "" ≠ "") →
      2 ≤ entries.length →
      ((mergeWechatInboundMessages entries).content =
          some (jsJoin "\n" (entries.map fun m => (m.content.map jsTrim).getD "")) ∧
        ((mergeWechatInboundMessages entries).isMentioned.getD false =
          entries.any fun m => m.isMentioned.getD false) ∧
        (mergeWechatInboundMessages entries).id = last.id ∧
        (mergeWechatInboundMessages entries).newMsgId = last.newMsgId ∧
        (mergeWechatInboundMessages entries).msgType = last.msgType ∧
        (mergeWechatInboundMessages entries).fromUserName = last.fromUserName ∧
        (mergeWechatInboundMessages entries).toUserName = last.toUserName ∧
        (mergeWechatInboundMessages entries).isGroupMsg = last.isGroupMsg ∧
        (mergeWechatInboundMessages entries).actualSender = last.actualSender ∧
        (mergeWechatInboundMessages entries).createTimeMsg = last.createTimeMsg ∧
        (mergeWechatInboundMessages entries).senderNickname = last.senderNickname) ∧
      debounceFlush entries = some (mergeWechatInboundMessages entries)) ∧
    (∀ m : WechatMessage, debounceFlush [m] = some m) := by
  constructor
  · intro entries last hlast hne hlen
    have hfilter :
        ((entries.map fun m => (m.content.map jsTrim).getD "").filter (· ≠ "")) =
          entries.map fun m => (m.content.map jsTrim).getD "" := by
      rw [List.filter_eq_self]
      intro a ha
      obtain ⟨m, hm, rfl⟩ := List.mem_map.mp ha
      exact decide_eq_true (hne m hm)
    have hnil : entries ≠ [] := by
      intro h
      rw [h] at hlen
      exact absurd hlen (by decide)
    have hmapne : entries.map (fun m => (m.content.map jsTrim).getD "") ≠ [] := by
      intro h
      exact hnil (List.map_eq_nil_iff.mp h)
    have hjoin :
        jsJoin "\n" (entries.map fun m => (m.content.map jsTrim).getD "") ≠ "" := by
      refine jsJoin_ne_empty hmapne ?_
      intro x hx
      obtain ⟨m, hm, rfl⟩ := List.mem_map.mp hx
      exact hne m hm
    constructor
    · unfold mergeWechatInboundMessages
      rw [hlast, hfilter]
      simp only [Option.getD_some]
      refine ⟨by rw [if_pos hjoin], ?_, trivial, trivial, trivial, trivial, trivial,
        trivial, trivial, trivial, trivial⟩
      cases hw : entries.any fun m => m.isMentioned.getD false with
      | true => simp [hw]
      | false =>
        have hlastmem : last ∈ entries := List.mem_of_getLast?_eq_some hlast
        have hfalse : last.isMentioned.getD false = false := by
          have h := List.any_eq_false.mp hw last hlastmem
          rwa [Bool.not_eq_true] at h
        simp [hw, hfalse]
    · unfold debounceFlush
      rw [hlast]
      show (if entries.length = 1 then some last
        else some (mergeWechatInboundMessages entries)) = some (mergeWechatInboundMessages entries)
      rw [if_neg (by omega : ¬entries.length = 1)]
  · intro m
    rfl

/-- First buffered event for the C6 witness (text `a`, no mention). -/
def c6MsgA : WechatMessage :=
  { content := some "a", fromUserName := "u", isGroupMsg := true }

/-- Second buffered event for the C6 witness (text `b`, mentioned). -/
def c6MsgB : WechatMessage :=
  { content := some "b", fromUserName := "u", isGroupMsg := true, isMentioned := some true }

/-- Third (last) buffered event for the C6 witness (text `c`). -/
def c6MsgC : WechatMessage :=
  { id := 7, content := some "c", fromUserName := "u", isGroupMsg := true }

theorem claim_C6_debounceMerge_witness :
    (mergeWechatInboundMessages [c6MsgA, c6MsgB, c6MsgC]).content = some "a\nb\nc" ∧
    (mergeWechatInboundMessages [c6MsgA, c6MsgB, c6MsgC]).isMentioned.getD false = true ∧
    (mergeWechatInboundMessages [c6MsgA, c6MsgB, c6MsgC]).id = c6MsgC.id ∧
    debounceFlush [c6MsgA, c6MsgB, c6MsgC] =
      some (mergeWechatInboundMessages [c6MsgA, c6MsgB, c6MsgC]) ∧
    debounceFlush [c6MsgA] = some c6MsgA := by
  have h := claim_C6_debounceMerge
  have h1 := h.1 [c6MsgA, c6MsgB, c6MsgC] c6MsgC (by decide) (by decide) (by decide)
  exact ⟨h1.1.1, h1.1.2.1, h1.1.2.2.1, h1.2, h.2 c6MsgA⟩

theorem clientSend_notConnected (ws : Option WsSocket)
    (h : clientIsConnected ws = false) (f : WireFrame) :
    clientSend ws f =
      { frames := [], warnings := ["[WeChat WebSocket] 未连接，发送失败"] } := by
  cases ws with
  | none => rfl
  | some w =>
    unfold clientIsConnected at h
    unfold clientSend
    show (if w.readyState = WS_OPEN then ({ frames := [f], warnings := [] } : SendOutcome)
      else { frames := [], warnings := ["[WeChat WebSocket] 未连接，发送失败"] }) =
      ({ frames := [], warnings := ["[WeChat WebSocket] 未连接，发送失败"] } : SendOutcome)
    have h' : decide (w.readyState = WS_OPEN) = false := h
    rw [if_neg (of_decide_eq_false h')]

/-- C8: every outbound send primitive of the connection client invoked while
the socket is absent or not `OPEN` writes no frame to the socket (there is
no buffer to put it in) and logs the "not connected" warning instead of
silently succeeding. -/
theorem claim_C8_sendNotConnected (ws : Option WsSocket)
    (h : clientIsConnected ws = false) :
    (∀ toWxid content mentions, clientSendText ws toWxid content mentions =
      { frames := [], warnings := ["[WeChat WebSocket] 未连接，发送失败"] }) ∧
    (∀ toWxid imageUrl, clientSendImage ws toWxid imageUrl =
      { frames := [], warnings := ["[WeChat WebSocket] 未连接，发送失败"] }) ∧
    (∀ messageIds, clientMarkProcessed ws messageIds =
      { frames := [], warnings := ["[WeChat WebSocket] 未连接，发送失败"] }) ∧
    (∀ contactType, clientQueryContacts ws contactType =
      { frames := [], warnings := ["[WeChat WebSocket] 未连接，发送失败"] }) :=
  ⟨fun t c m => clientSend_notConnected ws h (.sendTextFrame t c m),
   fun t u => clientSend_notConnected ws h (.sendImageFrame t u),
   fun ids => clientSend_notConnected ws h (.markProcessedFrame ids),
   fun ct => clientSend_notConnected ws h (.queryContactsFrame ct)⟩

theorem claim_C8_sendNotConnected_witness :
    clientSendText none "u1" "hi" [] =
      { frames := [], warnings := ["[WeChat WebSocket] 未连接，发送失败"] } ∧
    clientSendImage (some { id := 0, readyState := 3 }) "u1" "http://x/a.png" =
      { frames := [], warnings := ["[WeChat WebSocket] 未连接，发送失败"] } :=
  ⟨(claim_C8_sendNotConnected none (by decide)).1 "u1" "hi" [],
   (claim_C8_sendNotConnected (some { id := 0, readyState := 3 }) (by decide)).2.1
     "u1" "http://x/a.png"⟩

/-- C7: a media reference classified as voice whose duration is unavailable
is not an error in lenient mode — it degrades to a file send whose name
comes from hints or from the URL — while the same call in strict mode fails
with `voiceDuration required for voice send`. -/
theorem claim_C7_voiceFallback (host : JsHost) (chatRaw mediaUrl : String)
    (hints : MediaHints) (chat : String)
    (hchat : requireWechatOutboundTarget (some chatRaw) = .ok chat)
    (htrim : jsTrim mediaUrl ≠ "")
    (hkind : (resolveMediaSpec host (jsTrim mediaUrl) hints).kind = .voice)
    (hdur : (resolveMediaSpec host (jsTrim mediaUrl) hints).voiceDuration = none)
    (hname : fallbackFileName host
      (resolveMediaSpec host (jsTrim mediaUrl) hints).fileName (jsTrim mediaUrl) ≠ "") :
    sendWechatMedia host chatRaw mediaUrl hints false =
      .ok [.warned "[WeChat] voiceDuration missing; fallback to file send.",
        .sentFile chat (jsTrim mediaUrl)
          (fallbackFileName host
            (resolveMediaSpec host (jsTrim mediaUrl) hints).fileName (jsTrim mediaUrl))] ∧
    sendWechatMedia host chatRaw mediaUrl hints true =
      .error "voiceDuration required for voice send" := by
  have hfall : ∀ strict, fallbackToFile host strict chat
      (resolveMediaSpec host (jsTrim mediaUrl) hints).fileName (jsTrim mediaUrl) =
      .ok [.sentFile chat (jsTrim mediaUrl)
        (fallbackFileName host
          (resolveMediaSpec host (jsTrim mediaUrl) hints).fileName (jsTrim mediaUrl))] := by
    intro strict
    unfold fallbackToFile
    rw [if_neg hname]
  constructor
  · simp only [sendWechatMedia, hchat, if_neg htrim, hkind, hdur, hfall false,
      Bool.false_eq_true, if_false]
  · simp only [sendWechatMedia, hchat, if_neg htrim, hkind, hdur, if_true]

/-- Concrete host for the C7 witness: a URL parser that sees path `/a.mp3`
with no query parameters (so no duration hint is available). -/
def c7Host : JsHost :=
  { parseUrl := fun _ => some { pathname := "/a.mp3", queryParams := [] }
    parseQuery := fun _ => []
    decodeComponent := fun s => some s
    parseFloatTrunc := fun _ => none
    getFileExt := fun _ => some ".mp3" }

/-- Hints for the C7 witness: content type `audio/mpeg`, no duration. -/
def c7Hints : MediaHints := { contentType := some "audio/mpeg" }

theorem claim_C7_voiceFallback_witness :
    sendWechatMedia c7Host "u1" "https://example.com/a.mp3" c7Hints false =
      .ok [.warned "[WeChat] voiceDuration missing; fallback to file send.",
        .sentFile "u1" (jsTrim "https://example.com/a.mp3")
          (fallbackFileName c7Host
            (resolveMediaSpec c7Host (jsTrim "https://example.com/a.mp3") c7Hints).fileName
            (jsTrim "https://example.com/a.mp3"))] ∧
    sendWechatMedia c7Host "u1" "https://example.com/a.mp3" c7Hints true =
      .error "voiceDuration required for voice send" :=
  claim_C7_voiceFallback c7Host "u1" "https://example.com/a.mp3" c7Hints "u1"
    (by rfl) (by decide) (by decide) (by decide) (by decide)

end WechatChannel
